import Mathlib

/-!
Verification of the migrator multi-tenant database schema migrator.

This file is a shallow embedding of the core of the repository:
* the data model of `types.go` (migration kinds, migrations, tenants, results);
* the connector operations of `db/db.go` (`init`, `CreateVersion`,
  `CreateTenant`, `applyMigrationsInTx`, `getSchemaPlaceHolder`, ...),
  with the database modelled as an explicit state and SQL execution
  modelled through an oracle `sqlOk : String → Bool` (a statement whose
  execution the database rejects makes the Go code panic);
* the disk loader ordering engine, modelled from the specification since
  `loader/disk_loader.go` itself is not part of the sources provided
  (only its test is).

Transactions are modelled by running the transaction body on a copy of the
state: committing installs the copy, rolling back discards it.  Panics in
the Go sources are modelled with `Except String`.
-/

set_option maxRecDepth 40000

namespace WorkdayMigrator

/-- Decidable equality for `Except`, used to evaluate connector results on
concrete inputs. -/
def exceptDecEq {ε α : Type} [DecidableEq ε] [DecidableEq α] : DecidableEq (Except ε α) :=
  fun a b =>
    match a, b with
    | Except.ok x, Except.ok y =>
      if h : x = y then isTrue (by rw [h]) else isFalse (fun hc => h (Except.ok.inj hc))
    | Except.error x, Except.error y =>
      if h : x = y then isTrue (by rw [h]) else isFalse (fun hc => h (Except.error.inj hc))
    | Except.ok _, Except.error _ => isFalse (fun hc => Except.noConfusion hc)
    | Except.error _, Except.ok _ => isFalse (fun hc => Except.noConfusion hc)

instance {ε α : Type} [DecidableEq ε] [DecidableEq α] : DecidableEq (Except ε α) := exceptDecEq

/-! ## Data model (`types.go`) -/

/-- The four migration kinds of `types.go`
(`MigrationTypeSingleMigration`, `MigrationTypeTenantMigration`,
`MigrationTypeSingleScript`, `MigrationTypeTenantScript`). -/
inductive MigrationType where
  | SingleMigration : MigrationType
  | TenantMigration : MigrationType
  | SingleScript : MigrationType
  | TenantScript : MigrationType
deriving DecidableEq, Repr

/-- Apply actions: `ActionApply` executes the SQL, `ActionSync` only records
the rows. -/
inductive Action where
  | Apply : Action
  | Sync : Action
deriving DecidableEq, Repr

/-- A source-side migration record (`types.Migration`). -/
structure Migration where
  Name : String
  SourceDir : String
  File : String
  MigrationType : MigrationType
  Contents : String
  CheckSum : String
deriving DecidableEq, Repr

/-- A tenant (`types.Tenant`). -/
structure Tenant where
  Name : String
deriving DecidableEq, Repr

/-- The result counters of one apply invocation (`types.MigrationResults`).
Time is modelled with abstract `Nat` instants. -/
structure MigrationResults where
  StartedAt : Nat := 0
  Duration : Nat := 0
  Tenants : Nat := 0
  SingleMigrations : Nat := 0
  SingleScripts : Nat := 0
  TenantMigrations : Nat := 0
  TenantMigrationsTotal : Nat := 0
  TenantScripts : Nat := 0
  TenantScriptsTotal : Nat := 0
  MigrationsGrandTotal : Nat := 0
  ScriptsGrandTotal : Nat := 0
deriving DecidableEq, Repr

/-- A row of the `migrator_versions` table. -/
structure VersionRow where
  id : Nat
  name : String
deriving DecidableEq, Repr

/-- A row of the `migrator_migrations` tracking table; the column list is the
argument list of the migration insert in `applyMigrationsInTx`. -/
structure MigrationRow where
  Name : String
  SourceDir : String
  File : String
  MigrationType : MigrationType
  Schema : String
  Contents : String
  CheckSum : String
  VersionID : Nat
deriving DecidableEq, Repr

/-- The slice of `config.Config` the connector and the loader read. -/
structure Config where
  BaseDir : String
  SingleMigrations : List String
  TenantMigrations : List String
  SingleScripts : List String
  TenantScripts : List String
  TenantSelectSQL : String
  TenantInsertSQL : String
  SchemaPlaceHolder : String
deriving DecidableEq, Repr

/-- The dialect capability object of `db/dialect.go`: per-RDBMS SQL strings.
The concrete implementations live outside the provided sources, so the
dialect stays abstract and is a parameter of every connector operation. -/
structure Dialect where
  GetCreateSchemaSQL : String → String
  GetCreateTenantsTableSQL : String
  GetCreateMigrationsTableSQL : String
  GetCreateVersionsTableSQL : List String
  GetTenantSelectSQL : String
  GetTenantInsertSQL : String
  GetVersionInsertSQL : String
  GetMigrationInsertSQL : String
  LastInsertIDSupported : Bool

/-- The visible state of the target database. `executedSQL` is the log of
statements executed through `tx.Exec` (migration SQL and tenant
`CREATE SCHEMA` DDL). -/
structure DBState where
  tenants : List String
  schemas : List String
  versions : List VersionRow
  migrationRows : List MigrationRow
  executedSQL : List String
  nextVersionID : Nat
deriving DecidableEq, Repr

/-- The observable outcome of one `CreateVersion` / `CreateTenant` call:
whether a transaction was begun, the database state after the call, and
either the returned results or the re-raised panic message. -/
structure CallResult where
  beganTx : Bool
  state : DBState
  outcome : Except String (MigrationResults × Option VersionRow)
deriving DecidableEq, Repr

/-! ## String primitives

`strings.Replace(s, old, new, -1)` and lexicographic string comparison are
re-implemented structurally (over `List Char`) so that every definition
evaluates inside the kernel. -/

/-- Comparison of natural numbers as a three-way `Ordering`. -/
def natCmp (a b : Nat) : Ordering :=
  if a < b then Ordering.lt else if b < a then Ordering.gt else Ordering.eq

/-- Lexicographic three-way comparison of code-point lists. -/
def natListCmp : List Nat → List Nat → Ordering
  | [], [] => Ordering.eq
  | [], _ :: _ => Ordering.lt
  | _ :: _, [] => Ordering.gt
  | a :: as, b :: bs =>
    match natCmp a b with
    | Ordering.eq => natListCmp as bs
    | o => o

/-- The code points of a string. -/
def strCodes (s : String) : List Nat := s.data.map Char.toNat

/-- Lexicographic three-way comparison of strings (byte-wise comparison of
Go is code-point-wise on the ASCII file names involved). -/
def strCmp (a b : String) : Ordering := natListCmp (strCodes a) (strCodes b)

/-- Lexicographic product of two comparators. -/
def prodCmp {β γ : Type} (cb : β → β → Ordering) (cg : γ → γ → Ordering)
    (x y : β × γ) : Ordering :=
  (cb x.1 y.1).then (cg x.2 y.2)

/-- Fuelled core of `strings.Replace(s, old, new, -1)`: replace each
non-overlapping occurrence of `pat`, scanning left to right. -/
def replaceChars : Nat → List Char → List Char → List Char → List Char
  | 0, s, _, _ => s
  | _ + 1, [], _, _ => []
  | fuel + 1, c :: rest, pat, rep =>
    if pat.isPrefixOf (c :: rest) then
      rep ++ replaceChars fuel ((c :: rest).drop pat.length) pat rep
    else
      c :: replaceChars fuel rest pat rep

/-- `strings.Replace(s, pat, rep, -1)` (the placeholder patterns used by the
connector are never empty). -/
def stringReplace (s pat rep : String) : String :=
  String.mk (replaceChars s.data.length s.data pat.data rep.data)

/-- Go `filepath.Base`: the last element of the path after removing trailing
slashes; `"."` for the empty path, `"/"` for an all-slash path. -/
def filepathBase (path : String) : String :=
  if path = "" then "."
  else
    let trimmed := (path.data.reverse.dropWhile (fun c => c = '/')).reverse
    if trimmed = [] then "/"
    else String.mk (trimmed.reverse.takeWhile (fun c => c ≠ '/')).reverse

/-! ## Loader (`loader/disk_loader.go`) -/

/-- Rank of a migration kind in the loader ordering:
`SingleMigration < TenantMigration < SingleScript < TenantScript`. -/
def kindRank : MigrationType → Nat
  | MigrationType.SingleMigration => 0
  | MigrationType.TenantMigration => 1
  | MigrationType.SingleScript => 2
  | MigrationType.TenantScript => 3

/-- The sort key of a source migration: name, then kind rank, then source
directory. -/
def migKey (m : Migration) : String × Nat × String :=
  (m.Name, kindRank m.MigrationType, m.SourceDir)

/-- The loader comparator on sort keys: `Name` lexicographic first, the kind
rank second, `SourceDir` lexicographic third. -/
def keyCmp : String × Nat × String → String × Nat × String → Ordering :=
  prodCmp strCmp (prodCmp natCmp strCmp)

/-- Three-way comparison of migrations in loader order. -/
def migCmp (a b : Migration) : Ordering := keyCmp (migKey a) (migKey b)

/-- Boolean less-or-equal on migrations in loader order. -/
def migLeB (a b : Migration) : Bool := (migCmp a b).isLE

/-- The loader total order as a relation. -/
def migLe (a b : Migration) : Prop := migLeB a b = true

instance : DecidableRel migLe := fun a b => decidable_of_iff (migLeB a b = true) Iff.rfl

/-- A directory listing: directory path to (file name, file contents). -/
abbrev FileSystem : Type := List (String × List (String × String))

/-- Modelled from the spec (section 4.2): `loader/disk_loader.go` is not among
the provided sources.  Enumerate one configured directory: absent
directories abort the call naming the missing path; each file becomes a
`Migration` of the kind of the list the directory came from, with
`SourceDir` the base-dir-joined directory, `File = SourceDir ++ sep ++ Name`
and `CheckSum = hash Contents`. -/
def loadDir (hash : String → String) (fs : FileSystem) (baseDir : String)
    (k : MigrationType) (dir : String) : Except String (List Migration) :=
  let full := baseDir ++ "/" ++ dir
  match fs.lookup full with
  | none => Except.error (full ++ ": no such file or directory")
  | some files =>
    Except.ok (files.map (fun f =>
      { Name := f.1, SourceDir := full, File := full ++ "/" ++ f.1,
        MigrationType := k, Contents := f.2, CheckSum := hash f.2 }))

/-- Modelled from the spec (section 4.2): enumerate a list of configured
directories of one kind. -/
def loadDirs (hash : String → String) (fs : FileSystem) (baseDir : String)
    (k : MigrationType) : List String → Except String (List Migration)
  | [] => Except.ok []
  | d :: rest =>
    match loadDir hash fs baseDir k d with
    | Except.error e => Except.error e
    | Except.ok ms =>
      match loadDirs hash fs baseDir k rest with
      | Except.error e => Except.error e
      | Except.ok more => Except.ok (ms ++ more)

/-- Modelled from the spec (section 4.2): the unsorted union of the files of
the four configured directory kinds. -/
def collectSourceMigrations (hash : String → String) (fs : FileSystem)
    (cfg : Config) : Except String (List Migration) :=
  match loadDirs hash fs cfg.BaseDir MigrationType.SingleMigration cfg.SingleMigrations with
  | Except.error e => Except.error e
  | Except.ok singleMigs =>
    match loadDirs hash fs cfg.BaseDir MigrationType.TenantMigration cfg.TenantMigrations with
    | Except.error e => Except.error e
    | Except.ok tenantMigs =>
      match loadDirs hash fs cfg.BaseDir MigrationType.SingleScript cfg.SingleScripts with
      | Except.error e => Except.error e
      | Except.ok singleScr =>
        match loadDirs hash fs cfg.BaseDir MigrationType.TenantScript cfg.TenantScripts with
        | Except.error e => Except.error e
        | Except.ok tenantScr =>
          Except.ok (singleMigs ++ tenantMigs ++ singleScr ++ tenantScr)

/-- Modelled from the spec (section 4.2): `GetSourceMigrations` returns the
union of the four directory kinds sorted by the loader total order. -/
def getSourceMigrations (hash : String → String) (fs : FileSystem)
    (cfg : Config) : Except String (List Migration) :=
  match collectSourceMigrations hash fs cfg with
  | Except.error e => Except.error e
  | Except.ok l => Except.ok (List.insertionSort migLe l)

/-! ## Connector (`db/db.go`) -/

def migratorSchema : String := "migrator"

def defaultSchemaPlaceHolder : String := "{schema}"

/-- `getSchemaPlaceHolder` (db.go): the configured placeholder, or the
default one when the config does not set it. -/
def getSchemaPlaceHolder (cfg : Config) : String :=
  if cfg.SchemaPlaceHolder ≠ "" then cfg.SchemaPlaceHolder else defaultSchemaPlaceHolder

/-- `getTenantInsertSQL` (db.go): the configured tenant insert statement, or
the dialect default. -/
def getTenantInsertSQL (cfg : Config) (d : Dialect) : String :=
  if cfg.TenantInsertSQL ≠ "" then cfg.TenantInsertSQL else d.GetTenantInsertSQL

/-- `getTenantSelectSQL` (db.go): the configured tenant select statement, or
the dialect default. -/
def getTenantSelectSQL (cfg : Config) (d : Dialect) : String :=
  if cfg.TenantSelectSQL ≠ "" then cfg.TenantSelectSQL else d.GetTenantSelectSQL

/-- `GetTenants` (db.go): all tenant rows, in database order. -/
def getTenants (st : DBState) : List Tenant :=
  st.tenants.map (fun n => { Name := n })

/-- The row inserted into `migrator_migrations` for migration `m`, schema `s`
and version `vid` (argument order of the insert in `applyMigrationsInTx`). -/
def mkRow (m : Migration) (s : String) (vid : Nat) : MigrationRow :=
  { Name := m.Name, SourceDir := m.SourceDir, File := m.File,
    MigrationType := m.MigrationType, Schema := s, Contents := m.Contents,
    CheckSum := m.CheckSum, VersionID := vid }

/-- The target schemas of one migration inside `applyMigrationsInTx`: all
tenant names for the tenant kinds, otherwise the base name of the source
directory. -/
def schemasFor (tenants : List Tenant) (m : Migration) : List String :=
  if m.MigrationType = MigrationType.TenantMigration
      ∨ m.MigrationType = MigrationType.TenantScript then
    tenants.map Tenant.Name
  else
    [filepathBase m.SourceDir]

/-- The execution half of one schema iteration of `applyMigrationsInTx`: on
`Apply`, substitute the schema placeholder into the contents and execute the
SQL (panicking if the database rejects it); on `Sync`, execute nothing. -/
def applySchemaExec (cfg : Config) (sqlOk : String → Bool) (action : Action)
    (m : Migration) (s : String) (st : DBState) : Except String DBState :=
  if action = Action.Apply then
    if sqlOk (stringReplace m.Contents (getSchemaPlaceHolder cfg) s) then
      Except.ok { st with
        executedSQL := st.executedSQL ++ [stringReplace m.Contents (getSchemaPlaceHolder cfg) s] }
    else
      Except.error ("SQL migration " ++ m.File ++ " failed with error")
  else
    Except.ok st

/-- One full iteration of the inner schema loop of `applyMigrationsInTx`:
the execution half followed by the tracking-row insert (done in both
actions). -/
def applySchema (cfg : Config) (sqlOk : String → Bool) (action : Action)
    (vid : Nat) (m : Migration) (s : String) (st : DBState) : Except String DBState :=
  match applySchemaExec cfg sqlOk action m s st with
  | Except.error e => Except.error e
  | Except.ok st1 =>
    Except.ok { st1 with migrationRows := st1.migrationRows ++ [mkRow m s vid] }

/-- The inner schema loop of `applyMigrationsInTx` over all target schemas of
one migration. -/
def applySchemas (cfg : Config) (sqlOk : String → Bool) (action : Action)
    (vid : Nat) (m : Migration) : List String → DBState → Except String DBState
  | [], st => Except.ok st
  | s :: rest, st =>
    match applySchema cfg sqlOk action vid m s st with
    | Except.error e => Except.error e
    | Except.ok st1 => applySchemas cfg sqlOk action vid m rest st1

/-- The per-kind counter updates at the end of one outer loop iteration of
`applyMigrationsInTx` (`n` is the number of target schemas). -/
def bumpCounters (m : Migration) (n : Nat) (r : MigrationResults) : MigrationResults :=
  let r1 := if m.MigrationType = MigrationType.SingleMigration then
    { r with SingleMigrations := r.SingleMigrations + 1 } else r
  let r2 := if m.MigrationType = MigrationType.SingleScript then
    { r1 with SingleScripts := r1.SingleScripts + 1 } else r1
  let r3 := if m.MigrationType = MigrationType.TenantMigration then
    { r2 with TenantMigrations := r2.TenantMigrations + 1,
              TenantMigrationsTotal := r2.TenantMigrationsTotal + n } else r2
  if m.MigrationType = MigrationType.TenantScript then
    { r3 with TenantScripts := r3.TenantScripts + 1,
              TenantScriptsTotal := r3.TenantScriptsTotal + n } else r3

/-- The outer migration loop of `applyMigrationsInTx`. -/
def applyLoop (cfg : Config) (sqlOk : String → Bool) (action : Action)
    (vid : Nat) (tenants : List Tenant) :
    List Migration → DBState → MigrationResults → Except String (DBState × MigrationResults)
  | [], st, r => Except.ok (st, r)
  | m :: rest, st, r =>
    let schemas := schemasFor tenants m
    match applySchemas cfg sqlOk action vid m schemas st with
    | Except.error e => Except.error e
    | Except.ok st1 => applyLoop cfg sqlOk action vid tenants rest st1 (bumpCounters m schemas.length r)

/-- The fresh result record at the top of `applyMigrationsInTx`. -/
def initResults (now tenantsLen : Nat) : MigrationResults :=
  { StartedAt := now, Tenants := tenantsLen }

/-- The deferred block of `applyMigrationsInTx`: duration and grand totals. -/
def finalize (endTime : Nat) (r : MigrationResults) : MigrationResults :=
  { r with Duration := endTime - r.StartedAt,
           MigrationsGrandTotal := r.TenantMigrationsTotal + r.SingleMigrations,
           ScriptsGrandTotal := r.TenantScriptsTotal + r.SingleScripts }

/-- `applyMigrationsInTx` (db.go): insert the version row, run the migration
loop, and finalize the counters.  Runs against the in-transaction state. -/
def applyMigrationsInTx (cfg : Config) (sqlOk : String → Bool) (now endTime : Nat)
    (st : DBState) (versionName : String) (action : Action)
    (tenants : List Tenant) (migrations : List Migration) :
    Except String (MigrationResults × Nat × DBState) :=
  match applyLoop cfg sqlOk action st.nextVersionID tenants migrations
      { st with versions := st.versions ++ [{ id := st.nextVersionID, name := versionName }],
                nextVersionID := st.nextVersionID + 1 }
      (initResults now tenants.length) with
  | Except.error e => Except.error e
  | Except.ok (st2, r) => Except.ok (finalize endTime r, st.nextVersionID, st2)

/-- `getVersionByIDInTx` (db.go) as a query: the first version row with the
given id, if any; the caller panics when it is absent. -/
def getVersionByIDInTx (st : DBState) (vid : Nat) : Option VersionRow :=
  st.versions.find? (fun v => v.id == vid)

/-- The deferred transaction-boundary block shared by `CreateVersion` and
`CreateTenant`: a panic rolls back (the pre-transaction state survives) and
re-raises; a dry run rolls back and returns the results; otherwise the
transaction commits. -/
def finishTx {A : Type} (dryRun : Bool) (preTx : DBState)
    (r : Except String (DBState × A)) : DBState × Except String A :=
  match r with
  | Except.error e => (preTx, Except.error e)
  | Except.ok (st1, a) => if dryRun then (preTx, Except.ok a) else (st1, Except.ok a)

/-- The body of `CreateVersion` between `Begin` and the return: apply the
migrations and read back the version row (panicking when it is not found). -/
def createVersionBody (cfg : Config) (sqlOk : String → Bool) (now endTime : Nat)
    (st : DBState) (versionName : String) (action : Action)
    (tenants : List Tenant) (migrations : List Migration) :
    Except String (DBState × (MigrationResults × Option VersionRow)) :=
  match applyMigrationsInTx cfg sqlOk now endTime st versionName action tenants migrations with
  | Except.error e => Except.error e
  | Except.ok (results, vid, st1) =>
    match getVersionByIDInTx st1 vid with
    | none => Except.error ("Version not found ID: " ++ toString vid)
    | some v => Except.ok (st1, (results, some v))

/-- `CreateVersion` (db.go): an empty migration list short-circuits to an
empty result without touching the database; otherwise the tenants are read,
a transaction is begun and the body runs under the deferred
rollback/commit block. -/
def createVersion (cfg : Config) (sqlOk : String → Bool) (now endTime : Nat)
    (st : DBState) (versionName : String) (action : Action) (dryRun : Bool)
    (migrations : List Migration) : CallResult :=
  if migrations.length = 0 then
    { beganTx := false, state := st,
      outcome := Except.ok ({ StartedAt := now, Duration := 0 }, none) }
  else
    { beganTx := true,
      state := (finishTx dryRun st (createVersionBody cfg sqlOk now endTime st
        versionName action (getTenants st) migrations)).1,
      outcome := (finishTx dryRun st (createVersionBody cfg sqlOk now endTime st
        versionName action (getTenants st) migrations)).2 }

/-- The body of `CreateTenant` between `Begin` and the return: create the
tenant schema (a DDL panic aborts), insert the tenant row, apply the passed
migrations for the single new tenant, and read back the version row. -/
def createTenantBody (cfg : Config) (d : Dialect) (sqlOk : String → Bool)
    (now endTime : Nat) (st : DBState) (versionName : String) (action : Action)
    (tenant : String) (migrations : List Migration) :
    Except String (DBState × (MigrationResults × Option VersionRow)) :=
  let createSchema := d.GetCreateSchemaSQL tenant
  if sqlOk createSchema then
    match applyMigrationsInTx cfg sqlOk now endTime
        { st with schemas := st.schemas ++ [tenant],
                  executedSQL := st.executedSQL ++ [createSchema],
                  tenants := st.tenants ++ [tenant] } versionName action
        [{ Name := tenant }] migrations with
    | Except.error e => Except.error e
    | Except.ok (results, vid, st2) =>
      match getVersionByIDInTx st2 vid with
      | none => Except.error ("Version not found ID: " ++ toString vid)
      | some v => Except.ok (st2, (results, some v))
  else
    Except.error ("Create schema failed: " ++ createSchema)

/-- `CreateTenant` (db.go): always begins a transaction (no empty-migration
short-circuit) and runs the body under the deferred rollback/commit block. -/
def createTenant (cfg : Config) (d : Dialect) (sqlOk : String → Bool)
    (now endTime : Nat) (st : DBState) (versionName : String) (action : Action)
    (dryRun : Bool) (tenant : String) (migrations : List Migration) : CallResult :=
  { beganTx := true,
    state := (finishTx dryRun st (createTenantBody cfg d sqlOk now endTime st
      versionName action tenant migrations)).1,
    outcome := (finishTx dryRun st (createTenantBody cfg d sqlOk now endTime st
      versionName action tenant migrations)).2 }

/-! ## Connector construction (`init` in db.go) -/

/-- An event of the bootstrap sequence: `dbQuery` is a statement issued on
the pooled handle `bc.db`, `txQuery` a statement issued on the transaction
`tx`. -/
inductive InitEvent where
  | beginTx : InitEvent
  | dbQuery : String → InitEvent
  | txQuery : String → InitEvent
  | commit : InitEvent
deriving DecidableEq, Repr

/-- Whether an event is a statement issued on the transaction. -/
def InitEvent.onTx : InitEvent → Bool
  | InitEvent.txQuery _ => true
  | _ => false

/-- The bootstrap DDL statements of `init`: migrator schema, migrations
table, versions table(s), and the default tenants table only when
`TenantSelectSQL` is not overridden. -/
def bootstrapSQL (cfg : Config) (d : Dialect) : List String :=
  [d.GetCreateSchemaSQL migratorSchema, d.GetCreateMigrationsTableSQL]
    ++ d.GetCreateVersionsTableSQL
    ++ (if cfg.TenantSelectSQL = "" then [d.GetCreateTenantsTableSQL] else [])

/-- `init` (db.go): begin a transaction, then issue every bootstrap DDL
statement through `bc.db.Query` (the pooled handle, not the transaction),
then commit the (empty) transaction. -/
def initEvents (cfg : Config) (d : Dialect) : List InitEvent :=
  [InitEvent.beginTx]
    ++ (bootstrapSQL cfg d).map InitEvent.dbQuery
    ++ [InitEvent.commit]

/-- The tenant-name validation policy of specification section 7: the name
must match the anchored regular expression of word characters
(one of A-Z, a-z or an underscore first, then those or digits). -/
def validTenantName (s : String) : Bool :=
  match s.data with
  | [] => false
  | c :: rest => (c.isAlpha || c = '_') && rest.all (fun x => x.isAlphanum || x = '_')

/-! ## Lawfulness of the loader comparators -/

theorem natCmp_eq_iff (a b : Nat) : natCmp a b = Ordering.eq ↔ a = b := by
  unfold natCmp
  split_ifs with h1 h2
  · exact iff_of_false (by simp) (by omega)
  · exact iff_of_false (by simp) (by omega)
  · exact iff_of_true rfl (by omega)

theorem natCmp_lt_iff (a b : Nat) : natCmp a b = Ordering.lt ↔ a < b := by
  unfold natCmp
  split_ifs with h1 h2
  · exact iff_of_true rfl h1
  · exact iff_of_false (by simp) (by omega)
  · exact iff_of_false (by simp) (by omega)

theorem natCmp_swap (a b : Nat) : (natCmp a b).swap = natCmp b a := by
  unfold natCmp
  split_ifs with h1 h2 h3 <;> first | rfl | (exfalso; omega)

theorem natCmp_lt_trans {a b c : Nat} (h1 : natCmp a b = Ordering.lt)
    (h2 : natCmp b c = Ordering.lt) : natCmp a c = Ordering.lt := by
  rw [natCmp_lt_iff] at h1 h2 ⊢
  omega

theorem natListCmp_eq_iff : ∀ (a b : List Nat), natListCmp a b = Ordering.eq ↔ a = b
  | [], [] => by simp [natListCmp]
  | [], _ :: _ => by simp [natListCmp]
  | _ :: _, [] => by simp [natListCmp]
  | a :: as, b :: bs => by
    unfold natListCmp
    cases h : natCmp a b with
    | lt =>
      refine iff_of_false (by simp) ?_
      intro hc
      rw [List.cons.injEq] at hc
      rw [(natCmp_eq_iff a b).mpr hc.1] at h
      cases h
    | eq =>
      have hab : a = b := (natCmp_eq_iff a b).mp h
      simp only [List.cons.injEq, natListCmp_eq_iff as bs, hab, true_and]
    | gt =>
      refine iff_of_false (by simp) ?_
      intro hc
      rw [List.cons.injEq] at hc
      rw [(natCmp_eq_iff a b).mpr hc.1] at h
      cases h

theorem natListCmp_swap : ∀ (a b : List Nat), (natListCmp a b).swap = natListCmp b a
  | [], [] => rfl
  | [], _ :: _ => rfl
  | _ :: _, [] => rfl
  | a :: as, b :: bs => by
    unfold natListCmp
    rw [← natCmp_swap a b]
    cases h : natCmp a b with
    | lt => rfl
    | eq => exact natListCmp_swap as bs
    | gt => rfl

theorem natListCmp_lt_trans :
    ∀ {a b c : List Nat}, natListCmp a b = Ordering.lt → natListCmp b c = Ordering.lt →
      natListCmp a c = Ordering.lt
  | [], [], _, h1, _ => by cases h1
  | [], _ :: _, [], _, h2 => by cases h2
  | [], _ :: _, _ :: _, _, _ => rfl
  | _ :: _, [], _, h1, _ => by cases h1
  | _ :: _, _ :: _, [], _, h2 => by cases h2
  | a :: as, b :: bs, c :: cs, h1, h2 => by
    unfold natListCmp at h1 h2 ⊢
    cases hab : natCmp a b with
    | gt => rw [hab] at h1; cases h1
    | lt =>
      cases hbc : natCmp b c with
      | gt => rw [hbc] at h2; cases h2
      | lt => rw [natCmp_lt_trans hab hbc]
      | eq =>
        rw [← (natCmp_eq_iff b c).mp hbc, hab]
    | eq =>
      rw [hab] at h1
      rw [(natCmp_eq_iff a b).mp hab]
      cases hbc : natCmp b c with
      | gt => rw [hbc] at h2; cases h2
      | lt => rfl
      | eq => rw [hbc] at h2; exact natListCmp_lt_trans h1 h2

theorem strCodes_inj {a b : String} (h : strCodes a = strCodes b) : a = b := by
  unfold strCodes at h
  have hinj : Function.Injective Char.toNat := by
    intro c d hcd
    exact Char.eq_of_val_eq (UInt32.toNat.inj hcd)
  have hdata : a.data = b.data := List.map_injective_iff.mpr hinj h
  cases a
  cases b
  simp_all

theorem strCmp_eq_iff (a b : String) : strCmp a b = Ordering.eq ↔ a = b := by
  unfold strCmp
  rw [natListCmp_eq_iff]
  constructor
  · exact strCodes_inj
  · intro h; rw [h]

theorem strCmp_swap (a b : String) : (strCmp a b).swap = strCmp b a :=
  natListCmp_swap _ _

theorem strCmp_lt_trans {a b c : String} (h1 : strCmp a b = Ordering.lt)
    (h2 : strCmp b c = Ordering.lt) : strCmp a c = Ordering.lt :=
  natListCmp_lt_trans h1 h2

theorem prodCmp_eq_iff {β γ : Type} {cb : β → β → Ordering} {cg : γ → γ → Ordering}
    (hb : ∀ u v, cb u v = Ordering.eq ↔ u = v)
    (hg : ∀ u v, cg u v = Ordering.eq ↔ u = v) (x y : β × γ) :
    prodCmp cb cg x y = Ordering.eq ↔ x = y := by
  unfold prodCmp
  cases h : cb x.1 y.1 with
  | lt =>
    refine iff_of_false (by simp [Ordering.then]) ?_
    intro hc
    rw [(hb x.1 y.1).mpr (by rw [hc])] at h
    cases h
  | gt =>
    refine iff_of_false (by simp [Ordering.then]) ?_
    intro hc
    rw [(hb x.1 y.1).mpr (by rw [hc])] at h
    cases h
  | eq =>
    have h1 : x.1 = y.1 := (hb x.1 y.1).mp h
    simp only [Ordering.then, hg x.2 y.2, Prod.ext_iff, h1, true_and]

theorem prodCmp_swap {β γ : Type} {cb : β → β → Ordering} {cg : γ → γ → Ordering}
    (hb : ∀ u v, (cb u v).swap = cb v u)
    (hg : ∀ u v, (cg u v).swap = cg v u) (x y : β × γ) :
    (prodCmp cb cg x y).swap = prodCmp cb cg y x := by
  unfold prodCmp
  rw [← hb x.1 y.1, ← hg x.2 y.2]
  cases cb x.1 y.1 <;> cases cg x.2 y.2 <;> rfl

theorem prodCmp_lt_trans {β γ : Type} {cb : β → β → Ordering} {cg : γ → γ → Ordering}
    (hbeq : ∀ u v, cb u v = Ordering.eq ↔ u = v)
    (hblt : ∀ u v w, cb u v = Ordering.lt → cb v w = Ordering.lt → cb u w = Ordering.lt)
    (hglt : ∀ u v w, cg u v = Ordering.lt → cg v w = Ordering.lt → cg u w = Ordering.lt)
    {x y z : β × γ} (h1 : prodCmp cb cg x y = Ordering.lt)
    (h2 : prodCmp cb cg y z = Ordering.lt) : prodCmp cb cg x z = Ordering.lt := by
  unfold prodCmp at h1 h2 ⊢
  cases hxy : cb x.1 y.1 with
  | gt => rw [hxy] at h1; cases h1
  | lt =>
    cases hyz : cb y.1 z.1 with
    | gt => rw [hyz] at h2; cases h2
    | lt => rw [hblt _ _ _ hxy hyz]; rfl
    | eq => rw [← (hbeq y.1 z.1).mp hyz, hxy]; rfl
  | eq =>
    rw [hxy] at h1
    rw [(hbeq x.1 y.1).mp hxy]
    cases hyz : cb y.1 z.1 with
    | gt => rw [hyz] at h2; cases h2
    | lt => rfl
    | eq => rw [hyz] at h2; exact hglt _ _ _ h1 h2

theorem keyCmp_eq_iff (x y : String × Nat × String) : keyCmp x y = Ordering.eq ↔ x = y :=
  prodCmp_eq_iff strCmp_eq_iff (prodCmp_eq_iff natCmp_eq_iff strCmp_eq_iff) x y

theorem keyCmp_swap (x y : String × Nat × String) : (keyCmp x y).swap = keyCmp y x :=
  prodCmp_swap strCmp_swap (prodCmp_swap natCmp_swap strCmp_swap) x y

theorem keyCmp_lt_trans {x y z : String × Nat × String} (h1 : keyCmp x y = Ordering.lt)
    (h2 : keyCmp y z = Ordering.lt) : keyCmp x z = Ordering.lt := by
  unfold keyCmp at h1 h2 ⊢
  exact @prodCmp_lt_trans String (Nat × String) strCmp (prodCmp natCmp strCmp)
    strCmp_eq_iff (fun u v w hu hv => strCmp_lt_trans hu hv)
    (fun u v w hu hv =>
      @prodCmp_lt_trans Nat String natCmp strCmp natCmp_eq_iff
        (fun p q r hp hq => natCmp_lt_trans hp hq)
        (fun p q r hp hq => strCmp_lt_trans hp hq) u v w hu hv)
    x y z h1 h2

instance : IsTotal Migration migLe :=
  ⟨fun a b => by
    unfold migLe migLeB migCmp
    cases h : keyCmp (migKey a) (migKey b) with
    | lt => left; rfl
    | eq => left; rfl
    | gt =>
      right
      have hsw := keyCmp_swap (migKey a) (migKey b)
      rw [h] at hsw
      rw [← hsw]
      rfl⟩

instance : IsTrans Migration migLe :=
  ⟨fun a b c hab hbc => by
    unfold migLe migLeB migCmp at hab hbc ⊢
    cases hab1 : keyCmp (migKey a) (migKey b) with
    | gt => rw [hab1] at hab; exact absurd hab (by decide)
    | eq => rw [(keyCmp_eq_iff _ _).mp hab1]; exact hbc
    | lt =>
      cases hbc1 : keyCmp (migKey b) (migKey c) with
      | gt => rw [hbc1] at hbc; exact absurd hbc (by decide)
      | eq => rw [← (keyCmp_eq_iff _ _).mp hbc1, hab1]; rfl
      | lt => rw [keyCmp_lt_trans hab1 hbc1]; rfl⟩

/-! ## Helper lemmas about the apply loop -/

theorem applySchemaExec_state {cfg : Config} {sqlOk : String → Bool} {action : Action}
    {m : Migration} {s : String} {st stm : DBState}
    (h : applySchemaExec cfg sqlOk action m s st = Except.ok stm) :
    stm.migrationRows = st.migrationRows ∧ stm.tenants = st.tenants ∧
      stm.schemas = st.schemas ∧ stm.versions = st.versions ∧
      stm.nextVersionID = st.nextVersionID := by
  unfold applySchemaExec at h
  split at h
  · split at h
    · injection h with h1
      subst h1
      exact ⟨rfl, rfl, rfl, rfl, rfl⟩
    · exact Except.noConfusion h
  · injection h with h1
    subst h1
    exact ⟨rfl, rfl, rfl, rfl, rfl⟩

theorem applySchema_rows {cfg : Config} {sqlOk : String → Bool} {action : Action}
    {vid : Nat} {m : Migration} {s : String} {st st1 : DBState}
    (h : applySchema cfg sqlOk action vid m s st = Except.ok st1) :
    st1.migrationRows = st.migrationRows ++ [mkRow m s vid] := by
  unfold applySchema at h
  cases hE : applySchemaExec cfg sqlOk action m s st with
  | error e => rw [hE] at h; exact Except.noConfusion h
  | ok stm =>
    rw [hE] at h
    injection h with h1
    subst h1
    show stm.migrationRows ++ [mkRow m s vid] = st.migrationRows ++ [mkRow m s vid]
    rw [(applySchemaExec_state hE).1]

theorem applySchemas_rows {cfg : Config} {sqlOk : String → Bool} {action : Action}
    {vid : Nat} {m : Migration} :
    ∀ (schemas : List String) (st st1 : DBState),
      applySchemas cfg sqlOk action vid m schemas st = Except.ok st1 →
      st1.migrationRows = st.migrationRows ++ schemas.map (fun s => mkRow m s vid)
  | [], st, st1, h => by
    injection h with h1
    subst h1
    simp
  | s :: rest, st, st1, h => by
    rw [applySchemas] at h
    cases hs : applySchema cfg sqlOk action vid m s st with
    | error e => rw [hs] at h; exact Except.noConfusion h
    | ok stm =>
      rw [hs] at h
      have ih := applySchemas_rows rest stm st1 h
      rw [ih, applySchema_rows hs]
      simp

theorem applyLoop_rows {cfg : Config} {sqlOk : String → Bool} {action : Action}
    {vid : Nat} {tenants : List Tenant} :
    ∀ (migs : List Migration) (st : DBState) (r : MigrationResults)
      (st1 : DBState) (r1 : MigrationResults),
      applyLoop cfg sqlOk action vid tenants migs st r = Except.ok (st1, r1) →
      st1.migrationRows = st.migrationRows ++
        (migs.map (fun m => (schemasFor tenants m).map (fun s => mkRow m s vid))).flatten
  | [], st, r, st1, r1, h => by
    injection h with h1
    rw [Prod.mk.injEq] at h1
    rw [← h1.1]
    simp
  | m :: rest, st, r, st1, r1, h => by
    rw [applyLoop] at h
    cases hs : applySchemas cfg sqlOk action vid m (schemasFor tenants m) st with
    | error e => rw [hs] at h; exact Except.noConfusion h
    | ok stm =>
      rw [hs] at h
      have ih := applyLoop_rows rest stm _ st1 r1 h
      rw [ih, applySchemas_rows (schemasFor tenants m) st stm hs]
      simp

/-- The number of tracking rows an apply invocation reports through its
counters. -/
def insertedTotal (r : MigrationResults) : Nat :=
  r.SingleMigrations + r.SingleScripts + r.TenantMigrationsTotal + r.TenantScriptsTotal

theorem bump_insertedTotal (tenants : List Tenant) (m : Migration) (r : MigrationResults) :
    insertedTotal (bumpCounters m (schemasFor tenants m).length r) =
      insertedTotal r + (schemasFor tenants m).length := by
  cases hk : m.MigrationType <;>
    simp [bumpCounters, schemasFor, insertedTotal, hk] <;> omega

theorem applyLoop_count {cfg : Config} {sqlOk : String → Bool} {action : Action}
    {vid : Nat} {tenants : List Tenant} :
    ∀ (migs : List Migration) (st : DBState) (r : MigrationResults)
      (st1 : DBState) (r1 : MigrationResults),
      applyLoop cfg sqlOk action vid tenants migs st r = Except.ok (st1, r1) →
      st1.migrationRows.length + insertedTotal r =
        st.migrationRows.length + insertedTotal r1
  | [], st, r, st1, r1, h => by
    injection h with h1
    rw [Prod.mk.injEq] at h1
    rw [← h1.1, ← h1.2]
  | m :: rest, st, r, st1, r1, h => by
    rw [applyLoop] at h
    cases hs : applySchemas cfg sqlOk action vid m (schemasFor tenants m) st with
    | error e => rw [hs] at h; exact Except.noConfusion h
    | ok stm =>
      rw [hs] at h
      have ih := applyLoop_count rest stm _ st1 r1 h
      have hrows : stm.migrationRows.length =
          st.migrationRows.length + (schemasFor tenants m).length := by
        rw [applySchemas_rows (schemasFor tenants m) st stm hs]
        simp
      rw [bump_insertedTotal] at ih
      omega

theorem applyMigrationsInTx_nil (cfg : Config) (sqlOk : String → Bool)
    (now endTime : Nat) (st : DBState) (versionName : String) (action : Action)
    (tenants : List Tenant) :
    applyMigrationsInTx cfg sqlOk now endTime st versionName action tenants [] =
      Except.ok (finalize endTime (initResults now tenants.length), st.nextVersionID,
        { st with versions := st.versions ++ [{ id := st.nextVersionID, name := versionName }],
                  nextVersionID := st.nextVersionID + 1 }) := rfl

theorem find_version_inserted (l : List VersionRow) (vid : Nat) (n : String) :
    ∃ v, (l ++ [({ id := vid, name := n } : VersionRow)]).find? (fun w => w.id == vid) = some v := by
  have h : ((l ++ [({ id := vid, name := n } : VersionRow)]).find?
      (fun w => w.id == vid)).isSome := by
    rw [List.find?_isSome]
    exact ⟨{ id := vid, name := n }, by simp, by simp⟩
  obtain ⟨v, hv⟩ := Option.isSome_iff_exists.mp h
  exact ⟨v, hv⟩

theorem createTenantBody_empty (cfg : Config) (d : Dialect) (sqlOk : String → Bool)
    (now endTime : Nat) (st : DBState) (versionName : String) (action : Action)
    (tenant : String) (h : sqlOk (d.GetCreateSchemaSQL tenant) = true) :
    ∃ v, createTenantBody cfg d sqlOk now endTime st versionName action tenant [] =
      Except.ok
        ({ st with schemas := st.schemas ++ [tenant],
                   executedSQL := st.executedSQL ++ [d.GetCreateSchemaSQL tenant],
                   tenants := st.tenants ++ [tenant],
                   versions := st.versions ++ [{ id := st.nextVersionID, name := versionName }],
                   nextVersionID := st.nextVersionID + 1 },
         (finalize endTime (initResults now 1), some v)) := by
  obtain ⟨v, hv⟩ := find_version_inserted st.versions st.nextVersionID versionName
  refine ⟨v, ?_⟩
  unfold createTenantBody
  rw [if_pos h, applyMigrationsInTx_nil]
  show (match getVersionByIDInTx _ st.nextVersionID with
    | none => Except.error ("Version not found ID: " ++ toString st.nextVersionID)
    | some v =>
      Except.ok (_, (finalize endTime (initResults now 1), some v))) = _
  unfold getVersionByIDInTx
  show (match List.find? (fun w => w.id == st.nextVersionID)
      (st.versions ++ [{ id := st.nextVersionID, name := versionName }]) with
    | none => Except.error ("Version not found ID: " ++ toString st.nextVersionID)
    | some v => Except.ok (_, (finalize endTime (initResults now 1), some v))) = _
  rw [hv]

/-! ## Concrete objects for evaluation -/

/-- A configuration with no overrides, used for concrete evaluations. -/
def cfg0 : Config :=
  { BaseDir := "", SingleMigrations := [], TenantMigrations := [], SingleScripts := [],
    TenantScripts := [], TenantSelectSQL := "", TenantInsertSQL := "", SchemaPlaceHolder := "" }

/-- A configuration overriding the schema placeholder, as in the
`migrator-overrides.yaml` test fixture. -/
def cfgOverride : Config :=
  { cfg0 with SchemaPlaceHolder := "[schema]" }

/-- A small database state used for concrete evaluations. -/
def st0 : DBState :=
  { tenants := ["abc"], schemas := ["abc"], versions := [], migrationRows := [],
    executedSQL := [], nextVersionID := 1 }

/-- Modelled from the spec (sections 4.1 and 6): a PostgreSQL-flavoured
sample dialect; the dialect implementations are not among the provided
sources. -/
def sampleDialect : Dialect :=
  { GetCreateSchemaSQL := fun s => "create schema if not exists " ++ s,
    GetCreateTenantsTableSQL :=
      "create table if not exists migrator.migrator_tenants (name text)",
    GetCreateMigrationsTableSQL :=
      "create table if not exists migrator.migrator_migrations (id serial primary key)",
    GetCreateVersionsTableSQL :=
      ["create table if not exists migrator.migrator_versions (id serial primary key)"],
    GetTenantSelectSQL := "select name from migrator.migrator_tenants",
    GetTenantInsertSQL := "insert into migrator.migrator_tenants (name) values ($1)",
    GetVersionInsertSQL := "insert into migrator.migrator_versions (name) values ($1) returning id",
    GetMigrationInsertSQL := "insert into migrator.migrator_migrations values ($1, $2, $3, $4, $5, $6, $7, $8)",
    LastInsertIDSupported := false }

/-- A concrete single migration. -/
def m0 : Migration :=
  { Name := "a.sql", SourceDir := "public", File := "public/a.sql",
    MigrationType := MigrationType.SingleMigration,
    Contents := "create table x", CheckSum := "cs" }

/-- A concrete tenant migration with a placeholder in its contents. -/
def mt0 : Migration :=
  { Name := "b.sql", SourceDir := "tenants", File := "tenants/b.sql",
    MigrationType := MigrationType.TenantMigration,
    Contents := "create table {schema}.settings", CheckSum := "cs2" }

/-- The section 8 ordering-scenario configuration of the disk loader test. -/
def scenarioConfig : Config :=
  { BaseDir := "../test",
    SingleMigrations := ["migrations/config", "migrations/ref"],
    TenantMigrations := ["migrations/tenants"],
    SingleScripts := ["migrations/config-scripts"],
    TenantScripts := ["migrations/tenants-scripts"],
    TenantSelectSQL := "", TenantInsertSQL := "", SchemaPlaceHolder := "" }

/-- The section 8 ordering-scenario directory tree of the disk loader test. -/
def scenarioFS : FileSystem :=
  [("../test/migrations/config",
    [("201602160001.sql", ""), ("201602160002.sql", "")]),
   ("../test/migrations/ref",
    [("201602160003.sql", ""), ("201602160004.sql", "")]),
   ("../test/migrations/tenants",
    [("201602160002.sql", ""), ("201602160003.sql", ""),
     ("201602160004.sql", ""), ("201602160005.sql", "")]),
   ("../test/migrations/config-scripts", [("201912181227.sql", "")]),
   ("../test/migrations/tenants-scripts", [("201912181228.sql", "")])]

/-- The unsorted union the loader collects in the section 8 scenario. -/
def scenarioUnsorted : List Migration :=
  match collectSourceMigrations (fun s => s) scenarioFS scenarioConfig with
  | Except.ok l => l
  | Except.error _ => []

/-- The migration results and state of a concrete two-tenant apply, for
witnesses. -/
def applyOut : MigrationResults × Nat × DBState :=
  match applyMigrationsInTx cfg0 (fun _ => true) 0 3 st0 "v1" Action.Apply
      [{ Name := "t1" }, { Name := "t2" }] [m0, mt0] with
  | Except.ok x => x
  | Except.error _ => ({}, 0, st0)

/-! ## Claim theorems -/

/-- C3: `CreateVersion` with an empty migration list returns a result whose
`Duration` is `0` and `StartedAt` is the current time, with no version
pointer, without beginning a transaction and with the database state
unchanged. -/
theorem c3_createVersion_empty_shortcircuit (cfg : Config) (sqlOk : String → Bool)
    (now endTime : Nat) (st : DBState) (versionName : String) (action : Action)
    (dryRun : Bool) :
    createVersion cfg sqlOk now endTime st versionName action dryRun [] =
      { beganTx := false, state := st,
        outcome := Except.ok ({ StartedAt := now, Duration := 0 }, none) } := rfl

/-- C1: for both transactional applies (`CreateVersion` on a non-empty
migration list and `CreateTenant`), a failure in the transaction body rolls
the state back to the pre-transaction state and re-raises the original
failure unchanged; a successful body with `dryRun` rolls back and returns
the results; otherwise the body state is committed and the results are
returned. -/
theorem c1_transaction_boundaries (cfg : Config) (d : Dialect) (sqlOk : String → Bool)
    (now endTime : Nat) (st : DBState) (versionName : String) (action : Action)
    (dryRun : Bool) (tenant : String) (migrations : List Migration)
    (hne : migrations ≠ []) :
    (∀ e, createVersionBody cfg sqlOk now endTime st versionName action
        (getTenants st) migrations = Except.error e →
      createVersion cfg sqlOk now endTime st versionName action dryRun migrations =
        { beganTx := true, state := st, outcome := Except.error e }) ∧
    (∀ st1 res, createVersionBody cfg sqlOk now endTime st versionName action
        (getTenants st) migrations = Except.ok (st1, res) →
      createVersion cfg sqlOk now endTime st versionName action dryRun migrations =
        { beganTx := true, state := if dryRun then st else st1,
          outcome := Except.ok res }) ∧
    (∀ e, createTenantBody cfg d sqlOk now endTime st versionName action
        tenant migrations = Except.error e →
      createTenant cfg d sqlOk now endTime st versionName action dryRun tenant migrations =
        { beganTx := true, state := st, outcome := Except.error e }) ∧
    (∀ st1 res, createTenantBody cfg d sqlOk now endTime st versionName action
        tenant migrations = Except.ok (st1, res) →
      createTenant cfg d sqlOk now endTime st versionName action dryRun tenant migrations =
        { beganTx := true, state := if dryRun then st else st1,
          outcome := Except.ok res }) := by
  have hlen : ¬ migrations.length = 0 := fun hx => hne (List.length_eq_zero.mp hx)
  refine ⟨?_, ?_, ?_, ?_⟩
  · intro e he
    unfold createVersion
    rw [if_neg hlen, he]
    rfl
  · intro st1 res hok
    unfold createVersion
    rw [if_neg hlen, hok]
    cases dryRun <;> rfl
  · intro e he
    unfold createTenant
    rw [he]
    rfl
  · intro st1 res hok
    unfold createTenant
    rw [hok]
    cases dryRun <;> rfl

/-- Witness for C1: a concrete dry-run apply whose SQL fails; the call rolls
back to the initial state and re-raises the panic message unchanged. -/
theorem c1_transaction_boundaries_witness :
    ([m0] ≠ ([] : List Migration)) ∧
    createVersionBody cfg0 (fun _ => false) 0 1 st0 "v1" Action.Apply
      (getTenants st0) [m0] =
      Except.error "SQL migration public/a.sql failed with error" ∧
    createVersion cfg0 (fun _ => false) 0 1 st0 "v1" Action.Apply true [m0] =
      { beganTx := true, state := st0,
        outcome := Except.error "SQL migration public/a.sql failed with error" } :=
  ⟨by decide, by decide,
    (c1_transaction_boundaries cfg0 sampleDialect (fun _ => false) 0 1 st0 "v1"
      Action.Apply true "t" [m0] (by decide)).1
      "SQL migration public/a.sql failed with error" (by decide)⟩

/-- C4: inside one schema iteration, the `Apply` action executes the
migration contents with every occurrence of the configured placeholder
replaced by the schema and then records the tracking row, while `Sync`
records the tracking row without executing any SQL; the placeholder is the
config override when set and `\x7bschema\x7d` otherwise. -/
theorem c4_placeholder_substitution (cfg : Config) (sqlOk : String → Bool)
    (vid : Nat) (m : Migration) (s : String) (st : DBState) :
    (applySchema cfg sqlOk Action.Apply vid m s st =
      if sqlOk (stringReplace m.Contents (getSchemaPlaceHolder cfg) s) then
        Except.ok { st with
          executedSQL :=
            st.executedSQL ++ [stringReplace m.Contents (getSchemaPlaceHolder cfg) s],
          migrationRows := st.migrationRows ++ [mkRow m s vid] }
      else Except.error ("SQL migration " ++ m.File ++ " failed with error")) ∧
    (applySchema cfg sqlOk Action.Sync vid m s st =
      Except.ok { st with migrationRows := st.migrationRows ++ [mkRow m s vid] }) ∧
    (cfg.SchemaPlaceHolder = "" → getSchemaPlaceHolder cfg = "{schema}") ∧
    (cfg.SchemaPlaceHolder ≠ "" → getSchemaPlaceHolder cfg = cfg.SchemaPlaceHolder) := by
  refine ⟨?_, rfl, ?_, ?_⟩
  · unfold applySchema applySchemaExec
    by_cases hs : sqlOk (stringReplace m.Contents (getSchemaPlaceHolder cfg) s) = true
    · rw [if_pos rfl, if_pos hs, if_pos hs]
    · rw [if_pos rfl, if_neg hs, if_neg hs]
  · intro h
    unfold getSchemaPlaceHolder defaultSchemaPlaceHolder
    rw [if_neg (by simp [h])]
  · intro h
    unfold getSchemaPlaceHolder
    rw [if_pos h]

/-- Witness for C4: the overridden placeholder configuration is picked up. -/
theorem c4_placeholder_substitution_witness :
    (cfgOverride.SchemaPlaceHolder ≠ "") ∧ getSchemaPlaceHolder cfgOverride = "[schema]" :=
  ⟨by decide, by
    rw [(c4_placeholder_substitution cfgOverride (fun _ => true) 1 m0 "abc" st0).2.2.2
      (by decide)]
    rfl⟩

/-- C5: in `applyMigrationsInTx` each migration fans out to all tenant names
for the tenant kinds and to the base name of its source directory otherwise;
exactly one tracking row is inserted per (migration, schema) pair and every
inserted row carries the single version id of the invocation. -/
theorem c5_schema_fanout (cfg : Config) (sqlOk : String → Bool) (now endTime : Nat)
    (st : DBState) (versionName : String) (action : Action)
    (tenants : List Tenant) (migrations : List Migration)
    (r : MigrationResults) (vid : Nat) (st2 : DBState)
    (h : applyMigrationsInTx cfg sqlOk now endTime st versionName action
      tenants migrations = Except.ok (r, vid, st2)) :
    vid = st.nextVersionID ∧
    st2.migrationRows = st.migrationRows ++
      (migrations.map (fun m =>
        (schemasFor tenants m).map (fun s => mkRow m s vid))).flatten ∧
    (∀ row ∈ st2.migrationRows, row ∉ st.migrationRows → row.VersionID = vid) := by
  unfold applyMigrationsInTx at h
  cases hl : applyLoop cfg sqlOk action st.nextVersionID tenants migrations
      { st with versions := st.versions ++ [{ id := st.nextVersionID, name := versionName }],
                nextVersionID := st.nextVersionID + 1 }
      (initResults now tenants.length) with
  | error e => rw [hl] at h; exact Except.noConfusion h
  | ok p =>
    obtain ⟨stp, rp⟩ := p
    rw [hl] at h
    injection h with h1
    rw [Prod.mk.injEq, Prod.mk.injEq] at h1
    obtain ⟨hr, hvid, hst⟩ := h1
    subst hst
    subst hvid
    have hrows : stp.migrationRows = st.migrationRows ++
        (migrations.map (fun m => (schemasFor tenants m).map
          (fun s => mkRow m s st.nextVersionID))).flatten :=
      applyLoop_rows migrations
        { st with versions := st.versions ++ [{ id := st.nextVersionID, name := versionName }],
                  nextVersionID := st.nextVersionID + 1 }
        (initResults now tenants.length) stp rp hl
    refine ⟨rfl, hrows, ?_⟩
    intro row hrow hnot
    rw [hrows] at hrow
    rcases List.mem_append.mp hrow with hmem | hmem
    · exact absurd hmem hnot
    · rcases List.mem_flatten.mp hmem with ⟨inner, hinner, hrowin⟩
      rcases List.mem_map.mp hinner with ⟨m, hm, hinner1⟩
      rw [← hinner1] at hrowin
      rcases List.mem_map.mp hrowin with ⟨s, hs, hrow1⟩
      rw [← hrow1]
      rfl

/-- Witness for C5: a concrete apply of one single and one tenant migration
over two tenants; the version id is the state's next version id. -/
theorem c5_schema_fanout_witness :
    applyMigrationsInTx cfg0 (fun _ => true) 0 3 st0 "v1" Action.Apply
      [{ Name := "t1" }, { Name := "t2" }] [m0, mt0] =
      Except.ok (applyOut.1, applyOut.2.1, applyOut.2.2) ∧
    applyOut.2.1 = st0.nextVersionID :=
  ⟨by decide,
    (c5_schema_fanout cfg0 (fun _ => true) 0 3 st0 "v1" Action.Apply
      [{ Name := "t1" }, { Name := "t2" }] [m0, mt0]
      applyOut.1 applyOut.2.1 applyOut.2.2 (by decide)).1⟩

/-- C6: for every successful apply invocation the number of tracking rows
inserted equals the sum
`SingleMigrations + SingleScripts + TenantMigrationsTotal + TenantScriptsTotal`
reported in the returned results. -/
theorem c6_inserted_row_count (cfg : Config) (sqlOk : String → Bool) (now endTime : Nat)
    (st : DBState) (versionName : String) (action : Action)
    (tenants : List Tenant) (migrations : List Migration)
    (r : MigrationResults) (vid : Nat) (st2 : DBState)
    (h : applyMigrationsInTx cfg sqlOk now endTime st versionName action
      tenants migrations = Except.ok (r, vid, st2)) :
    st2.migrationRows.length = st.migrationRows.length +
      (r.SingleMigrations + r.SingleScripts +
        r.TenantMigrationsTotal + r.TenantScriptsTotal) := by
  unfold applyMigrationsInTx at h
  cases hl : applyLoop cfg sqlOk action st.nextVersionID tenants migrations
      { st with versions := st.versions ++ [{ id := st.nextVersionID, name := versionName }],
                nextVersionID := st.nextVersionID + 1 }
      (initResults now tenants.length) with
  | error e => rw [hl] at h; exact Except.noConfusion h
  | ok p =>
    obtain ⟨stp, rp⟩ := p
    rw [hl] at h
    injection h with h1
    rw [Prod.mk.injEq, Prod.mk.injEq] at h1
    obtain ⟨hr, hvid, hst⟩ := h1
    subst hst
    have hcount : stp.migrationRows.length + insertedTotal (initResults now tenants.length) =
        st.migrationRows.length + insertedTotal rp :=
      applyLoop_count migrations
        { st with versions := st.versions ++ [{ id := st.nextVersionID, name := versionName }],
                  nextVersionID := st.nextVersionID + 1 }
        (initResults now tenants.length) stp rp hl
    have hin : insertedTotal (initResults now tenants.length) = 0 := rfl
    have hfin : insertedTotal (finalize endTime rp) = insertedTotal rp := rfl
    rw [← hr]
    show stp.migrationRows.length =
      st.migrationRows.length + insertedTotal (finalize endTime rp)
    omega

/-- Witness for C6: the row count identity at the concrete two-tenant
apply. -/
theorem c6_inserted_row_count_witness :
    applyMigrationsInTx cfg0 (fun _ => true) 0 3 st0 "v1" Action.Apply
      [{ Name := "t1" }, { Name := "t2" }] [m0, mt0] =
      Except.ok (applyOut.1, applyOut.2.1, applyOut.2.2) ∧
    applyOut.2.2.migrationRows.length = st0.migrationRows.length +
      (applyOut.1.SingleMigrations + applyOut.1.SingleScripts +
        applyOut.1.TenantMigrationsTotal + applyOut.1.TenantScriptsTotal) :=
  ⟨by decide,
    c6_inserted_row_count cfg0 (fun _ => true) 0 3 st0 "v1" Action.Apply
      [{ Name := "t1" }, { Name := "t2" }] [m0, mt0]
      applyOut.1 applyOut.2.1 applyOut.2.2 (by decide)⟩

/-- C10: with an empty tenant list, a tenant-kind migration executes no SQL
and inserts no tracking rows, yet its per-kind counter still increments by
one while the corresponding total stays zero. -/
theorem c10_tenant_counters_empty_tenant_list (cfg : Config) (sqlOk : String → Bool)
    (now endTime : Nat) (st : DBState) (versionName : String) (action : Action)
    (m : Migration)
    (h : m.MigrationType = MigrationType.TenantMigration ∨
      m.MigrationType = MigrationType.TenantScript) :
    ∃ r vid st2,
      applyMigrationsInTx cfg sqlOk now endTime st versionName action [] [m] =
        Except.ok (r, vid, st2) ∧
      st2.executedSQL = st.executedSQL ∧
      st2.migrationRows = st.migrationRows ∧
      (m.MigrationType = MigrationType.TenantMigration →
        r.TenantMigrations = 1 ∧ r.TenantMigrationsTotal = 0) ∧
      (m.MigrationType = MigrationType.TenantScript →
        r.TenantScripts = 1 ∧ r.TenantScriptsTotal = 0) := by
  have hs : schemasFor [] m = [] := by
    rcases h with h | h <;> simp [schemasFor, h]
  refine ⟨finalize endTime (bumpCounters m 0 (initResults now 0)), st.nextVersionID,
    { st with versions := st.versions ++ [{ id := st.nextVersionID, name := versionName }],
              nextVersionID := st.nextVersionID + 1 }, ?_, rfl, rfl, ?_, ?_⟩
  · unfold applyMigrationsInTx
    rw [applyLoop, hs]
    rfl
  · intro hk
    constructor <;> simp [finalize, bumpCounters, initResults, hk]
  · intro hk
    constructor <;> simp [finalize, bumpCounters, initResults, hk]

/-- Witness for C10: the concrete tenant migration applied with no
tenants succeeds. -/
theorem c10_tenant_counters_empty_tenant_list_witness :
    (mt0.MigrationType = MigrationType.TenantMigration ∨
      mt0.MigrationType = MigrationType.TenantScript) ∧
    (applyMigrationsInTx cfg0 (fun _ => true) 0 1 st0 "v1" Action.Apply [] [mt0]).isOk
      = true := by
  refine ⟨by decide, ?_⟩
  obtain ⟨r, vid, st2, hE, -⟩ :=
    c10_tenant_counters_empty_tenant_list cfg0 (fun _ => true) 0 1 st0 "v1"
      Action.Apply mt0 (by decide)
  rw [hE]
  rfl

/-- C9: `CreateTenant` with an empty migration list does not short-circuit
(unlike `CreateVersion`): it begins a transaction, executes the tenant
`CREATE SCHEMA` DDL, inserts the tenant row and inserts a version row, and
the inserted version row is found by the in-transaction lookup so the call
succeeds. -/
theorem c9_createTenant_empty_no_shortcircuit (cfg : Config) (d : Dialect)
    (sqlOk : String → Bool) (now endTime : Nat) (st : DBState) (versionName : String)
    (action : Action) (dryRun : Bool) (tenant : String)
    (h : sqlOk (d.GetCreateSchemaSQL tenant) = true) :
    (createVersion cfg sqlOk now endTime st versionName action dryRun []).beganTx = false ∧
    (createTenant cfg d sqlOk now endTime st versionName action dryRun tenant []).beganTx
      = true ∧
    (createTenant cfg d sqlOk now endTime st versionName action false tenant
      []).state.executedSQL = st.executedSQL ++ [d.GetCreateSchemaSQL tenant] ∧
    (createTenant cfg d sqlOk now endTime st versionName action false tenant
      []).state.tenants = st.tenants ++ [tenant] ∧
    (createTenant cfg d sqlOk now endTime st versionName action false tenant
      []).state.versions =
      st.versions ++ [{ id := st.nextVersionID, name := versionName }] ∧
    (createTenant cfg d sqlOk now endTime st versionName action false tenant
      []).outcome.isOk = true := by
  obtain ⟨v, hb⟩ := createTenantBody_empty cfg d sqlOk now endTime st versionName action
    tenant h
  refine ⟨rfl, rfl, ?_, ?_, ?_, ?_⟩ <;>
    · unfold createTenant
      rw [hb]
      rfl

/-- Witness for C9 at a concrete new tenant on the sample dialect. -/
theorem c9_createTenant_empty_no_shortcircuit_witness :
    ((fun _ : String => true) (sampleDialect.GetCreateSchemaSQL "newtenant") = true) ∧
    (createVersion cfg0 (fun _ => true) 0 1 st0 "v1" Action.Apply false []).beganTx
      = false ∧
    (createTenant cfg0 sampleDialect (fun _ => true) 0 1 st0 "v1" Action.Apply false
      "newtenant" []).beganTx = true :=
  ⟨rfl,
    (c9_createTenant_empty_no_shortcircuit cfg0 sampleDialect (fun _ => true) 0 1 st0
      "v1" Action.Apply false "newtenant" rfl).1,
    (c9_createTenant_empty_no_shortcircuit cfg0 sampleDialect (fun _ => true) 0 1 st0
      "v1" Action.Apply false "newtenant" rfl).2.1⟩

/-- C8 counterexample: the tenant name with a space fails the section 7
regular expression, yet `CreateTenant` is not rejected: it succeeds and the
`CREATE SCHEMA` DDL built from the raw tenant name is executed. -/
theorem c8_counterexample :
    validTenantName "bad tenant" = false ∧
    (createTenant cfg0 sampleDialect (fun _ => true) 0 1 st0 "v1" Action.Apply false
      "bad tenant" []).outcome.isOk = true ∧
    (createTenant cfg0 sampleDialect (fun _ => true) 0 1 st0 "v1" Action.Apply false
      "bad tenant" []).state.executedSQL =
      ["create schema if not exists bad tenant"] :=
  ⟨by decide, by decide, by decide⟩

/-- C8 (amended): `CreateTenant` performs no tenant-name validation at all:
for every tenant name — whether or not it matches the section 7 regular
expression — the `CREATE SCHEMA` statement built from the raw name is issued
inside the transaction; with a database that accepts every statement the
call succeeds and the statement is in the executed log. -/
theorem c8_no_validation (cfg : Config) (d : Dialect) (now endTime : Nat)
    (st : DBState) (versionName : String) (action : Action) (tenant : String) :
    (createTenant cfg d (fun _ => true) now endTime st versionName action false tenant
      []).outcome.isOk = true ∧
    (createTenant cfg d (fun _ => true) now endTime st versionName action false tenant
      []).state.executedSQL = st.executedSQL ++ [d.GetCreateSchemaSQL tenant] := by
  obtain ⟨v, hb⟩ := createTenantBody_empty cfg d (fun _ => true) now endTime st
    versionName action tenant rfl
  constructor <;>
    · unfold createTenant
      rw [hb]
      rfl

theorem filter_onTx_dbQuery (l : List String) :
    (l.map InitEvent.dbQuery).filter InitEvent.onTx = [] := by
  induction l with
  | nil => rfl
  | cons a l ih => simp [InitEvent.onTx, ih]

/-- C7 counterexample: on a configuration without a tenant-select override
and the sample dialect, the bootstrap trace of `init` issues every DDL
statement on the pooled handle (`dbQuery`), none on the transaction — the
transaction wrapping is vestigial, so the bootstrap is not performed inside
the transaction. -/
theorem c7_counterexample :
    initEvents cfg0 sampleDialect =
      [InitEvent.beginTx,
       InitEvent.dbQuery "create schema if not exists migrator",
       InitEvent.dbQuery
         "create table if not exists migrator.migrator_migrations (id serial primary key)",
       InitEvent.dbQuery
         "create table if not exists migrator.migrator_versions (id serial primary key)",
       InitEvent.dbQuery
         "create table if not exists migrator.migrator_tenants (name text)",
       InitEvent.commit] ∧
    (initEvents cfg0 sampleDialect).filter InitEvent.onTx = [] :=
  ⟨by decide, by decide⟩

/-- C7 (amended): on construction, `init` begins a transaction and commits
it around the idempotent bootstrap — migrator schema, migrations table,
versions table(s), and, only if `TenantSelectSQL` is not overridden, the
default tenants table — but every one of those DDL statements is issued on
the pooled connection outside the transaction; no statement at all runs on
the transaction. -/
theorem c7_bootstrap_outside_tx (cfg : Config) (d : Dialect) :
    initEvents cfg d =
      InitEvent.beginTx ::
        ((bootstrapSQL cfg d).map InitEvent.dbQuery ++ [InitEvent.commit]) ∧
    bootstrapSQL cfg d =
      [d.GetCreateSchemaSQL migratorSchema, d.GetCreateMigrationsTableSQL]
        ++ d.GetCreateVersionsTableSQL
        ++ (if cfg.TenantSelectSQL = "" then [d.GetCreateTenantsTableSQL] else []) ∧
    (initEvents cfg d).filter InitEvent.onTx = [] := by
  refine ⟨rfl, rfl, ?_⟩
  show ((InitEvent.beginTx ::
    ((bootstrapSQL cfg d).map InitEvent.dbQuery ++ [InitEvent.commit])).filter
      InitEvent.onTx) = []
  rw [List.filter_cons_of_neg (by simp [InitEvent.onTx]), List.filter_append,
    filter_onTx_dbQuery]
  rfl

/-- C2: `GetSourceMigrations` sorts the union of the four configured
directory kinds by the loader total order (`Name` lexicographic first, the
kind rank `SingleMigration < TenantMigration < SingleScript < TenantScript`
second, `SourceDir` lexicographic third), and on the section 8 scenario
directories it returns exactly the ten expected files in the listed
order. -/
theorem c2_loader_ordering :
    (∀ (hash : String → String) (fs : FileSystem) (cfg : Config) (l : List Migration),
      collectSourceMigrations hash fs cfg = Except.ok l →
        getSourceMigrations hash fs cfg = Except.ok (List.insertionSort migLe l) ∧
        (List.insertionSort migLe l).Sorted migLe ∧
        (List.insertionSort migLe l).Perm l) ∧
    Except.map (fun l => l.map Migration.File)
        (getSourceMigrations (fun s => s) scenarioFS scenarioConfig) =
      Except.ok
        ["../test/migrations/config/201602160001.sql",
         "../test/migrations/config/201602160002.sql",
         "../test/migrations/tenants/201602160002.sql",
         "../test/migrations/ref/201602160003.sql",
         "../test/migrations/tenants/201602160003.sql",
         "../test/migrations/ref/201602160004.sql",
         "../test/migrations/tenants/201602160004.sql",
         "../test/migrations/tenants/201602160005.sql",
         "../test/migrations/config-scripts/201912181227.sql",
         "../test/migrations/tenants-scripts/201912181228.sql"] := by
  constructor
  · intro hash fs cfg l hcol
    unfold getSourceMigrations
    rw [hcol]
    exact ⟨rfl, List.sorted_insertionSort migLe l, List.perm_insertionSort migLe l⟩
  · decide

/-- Witness for C2: the section 8 scenario collection evaluated concretely,
with its sorted output, sortedness and permutation facts. -/
theorem c2_loader_ordering_witness :
    collectSourceMigrations (fun s => s) scenarioFS scenarioConfig =
      Except.ok scenarioUnsorted ∧
    (getSourceMigrations (fun s => s) scenarioFS scenarioConfig =
        Except.ok (List.insertionSort migLe scenarioUnsorted) ∧
      (List.insertionSort migLe scenarioUnsorted).Sorted migLe ∧
      (List.insertionSort migLe scenarioUnsorted).Perm scenarioUnsorted) :=
  ⟨by decide,
    c2_loader_ordering.1 (fun s => s) scenarioFS scenarioConfig scenarioUnsorted
      (by decide)⟩

end WorkdayMigrator
